import Mathlib

/-!
Shallow embedding of the `try_utils` Rust crate (src/lib.rs).

The crate exposes a trait `TryAsOption` normalizing presence/absence values
(`Option<T>` maps through unchanged, `Result<T, E>` maps via `.ok()`), and
three call-site expansion forms, `try_return`, `try_continue`, `try_break`,
each of which evaluates its source expression once, matches the normalized
value, yields the payload on `Some(v)`, and on `None` performs `return ret`
(default `()`), `continue`/`continue 'label`, or `break`/`break 'label`.

Control flow is embedded with an explicit signal type `Step` (normal value,
function return, loop continue, loop break; the latter two carry an optional
loop label), threaded through a state monad `StM` so that side effects of
source expressions are observable. Labeled `for` loops are embedded by the
runner `forLoop`, which interprets `continue`/`break` signals addressed to
the loop (unlabeled signals target the innermost loop; labeled signals
propagate until the loop carrying that label) and propagates `return`.
-/

namespace TryUtils

/-- Rust's `Result<T, E>`: either a success payload or a failure detail. -/
inductive RsResult (T : Type) (E : Type) where
  | ok (t : T)
  | err (e : E)

/-- Rust's `Result::ok`: `Ok(t)` to `Some(t)`, `Err(_)` to `None`. -/
def RsResult.okOpt : RsResult T E → Option T
  | .ok t => some t
  | .err _ => none

/-- The trait `TryAsOption` from src/lib.rs: converts a type to an option
for use in the expansion forms. `β` is the associated `Output` type. -/
class TryAsOption (α : Type) (β : outParam Type) where
  try_as_option : α → Option β

/-- The impl of `TryAsOption` for `Option<T>`: `fn try_as_option(self) \x7b self \x7d`. -/
instance : TryAsOption (Option T) T where
  try_as_option o := o

/-- The impl of `TryAsOption` for `Result<T, E>`: `fn try_as_option(self) \x7b self.ok() \x7d`. -/
instance : TryAsOption (RsResult T E) T where
  try_as_option r := r.okOpt

/-- Control-flow outcome of evaluating an expression or statement: a normal
value, a `return r` from the enclosing function, a `continue` or a `break`
carrying an optional loop label (`none` targets the innermost loop). -/
inductive Step (L : Type) (ρ : Type) (α : Type) where
  | val (a : α)
  | ret (r : ρ)
  | cont (g : Option L)
  | brk (g : Option L)
deriving DecidableEq, Repr

/-- A computation over mutable state `σ` producing a control-flow outcome
with normal values of type `α`, inside a function returning `ρ`, with loop
labels drawn from `L`. -/
def StM (L ρ σ α : Type) : Type := σ → Step L ρ α × σ

/-- A plain expression: completes normally with a value. -/
def StM.pure (a : α) : StM L ρ σ α := fun s => (Step.val a, s)

/-- Sequencing: run the rest of the code only on normal completion;
`return`, `continue` and `break` signals skip everything after them. -/
def StM.bind (m : StM L ρ σ α) (k : α → StM L ρ σ β) : StM L ρ σ β := fun s =>
  match m s with
  | (Step.val a, s') => k a s'
  | (Step.ret r, s') => (Step.ret r, s')
  | (Step.cont g, s') => (Step.cont g, s')
  | (Step.brk g, s') => (Step.brk g, s')

/-- A source expression whose evaluation may have side effects on the state:
it is the `$e` argument of the expansion forms. -/
def Src (σ α : Type) : Type := σ → α × σ

/-- A side-effect-free source expression holding a fixed value. -/
def srcOf (a : α) : Src σ α := fun s => (a, s)

/-- `try_return!($e, $ret)`: evaluate `$e.try_as_option()` once; on `Some(v)`
yield `v`, on `None` perform `return $ret`. -/
def try_return [TryAsOption α β] (e : Src σ α) (ret : ρ) : StM L ρ σ β := fun s =>
  let p := e s
  match TryAsOption.try_as_option p.1 with
  | some v => (Step.val v, p.2)
  | none => (Step.ret ret, p.2)

/-- `try_return!($e)`: the one-argument arm delegates to `try_return!($e, ())`,
so the enclosing function must return unit. -/
def try_return1 [TryAsOption α β] (e : Src σ α) : StM L PUnit σ β :=
  try_return e PUnit.unit

/-- `try_continue!($e)`: on `None`, `continue` the innermost enclosing loop. -/
def try_continue [TryAsOption α β] (e : Src σ α) : StM L ρ σ β := fun s =>
  let p := e s
  match TryAsOption.try_as_option p.1 with
  | some v => (Step.val v, p.2)
  | none => (Step.cont none, p.2)

/-- `try_continue!($e, $label)`: on `None`, `continue $label`. -/
def try_continue_lbl [TryAsOption α β] (e : Src σ α) (lbl : L) : StM L ρ σ β := fun s =>
  let p := e s
  match TryAsOption.try_as_option p.1 with
  | some v => (Step.val v, p.2)
  | none => (Step.cont (some lbl), p.2)

/-- `try_break!($e)`: on `None`, `break` the innermost enclosing loop. -/
def try_break [TryAsOption α β] (e : Src σ α) : StM L ρ σ β := fun s =>
  let p := e s
  match TryAsOption.try_as_option p.1 with
  | some v => (Step.val v, p.2)
  | none => (Step.brk none, p.2)

/-- `try_break!($e, $label)`: on `None`, `break $label`. -/
def try_break_lbl [TryAsOption α β] (e : Src σ α) (lbl : L) : StM L ρ σ β := fun s =>
  let p := e s
  match TryAsOption.try_as_option p.1 with
  | some v => (Step.val v, p.2)
  | none => (Step.brk (some lbl), p.2)

/-- Whether a loop carrying label `lab` (`none` when unlabeled) catches a
`continue`/`break` signal `g`: an unlabeled signal is caught by the
innermost loop it reaches; a labeled signal only by the loop so labeled. -/
def catches [DecidableEq L] (lab : Option L) : Option L → Bool
  | none => true
  | some l => decide (lab = some l)

/-- A (possibly labeled) `for` loop over a list of items. The body runs per
item; a caught `continue` advances to the next item, a caught `break` ends
the loop normally, anything not addressed to this loop propagates outward. -/
def forLoop [DecidableEq L] (lab : Option L) (body : ι → StM L ρ σ PUnit) :
    List ι → StM L ρ σ PUnit
  | [] => StM.pure PUnit.unit
  | i :: rest => fun s =>
    match body i s with
    | (Step.val _, s') => forLoop lab body rest s'
    | (Step.ret r, s') => (Step.ret r, s')
    | (Step.cont g, s') =>
      if catches lab g then forLoop lab body rest s' else (Step.cont g, s')
    | (Step.brk g, s') =>
      if catches lab g then (Step.val PUnit.unit, s') else (Step.brk g, s')

/-- Run a function whose body is the given computation: a normal value is
the function's result and so is an early `return`. Stray `continue`/`break`
signals cannot escape a Rust function (they are compile errors), so they are
mapped to `default`; no program in this development produces one. -/
def runFn [Inhabited ρ] (body : StM L ρ σ ρ) (s : σ) : ρ × σ :=
  match body s with
  | (Step.val r, s') => (r, s')
  | (Step.ret r, s') => (r, s')
  | (Step.cont _, s') => (default, s')
  | (Step.brk _, s') => (default, s')

/-- The doc example `my_func2`: `fn my_func2(val: Option<i32>) -> i32
\x7b let val = try_return!(val, 1234); val \x7d`. -/
def my_func2 (val : Option Int) : Int :=
  (runFn (L := PUnit) (StM.bind (try_return (srcOf val) 1234) (fun v => StM.pure v))
    PUnit.unit).1

/-- The doc example `my_func3`: `fn my_func3(val: Option<i32>)
\x7b let _ = try_return!(val); panic!(); \x7d`. The state is a flag recording
whether the code after the expansion form (the `panic!()`) ran. -/
def my_func3 (val : Option Int) : PUnit × Bool :=
  runFn (L := PUnit)
    (StM.bind (try_return1 (srcOf val)) (fun _ => fun _ => (Step.val PUnit.unit, true)))
    false

/-- Loop body from the `try_continue_none` test: `count += 1;
let _ = try_continue!(src); panic!();`. State is `(count, reachedRest)`. -/
def contBody [TryAsOption α β] (a : α) : Nat → StM Nat PUnit (Nat × Bool) PUnit := fun _ =>
  StM.bind (fun s => (Step.val PUnit.unit, (s.1 + 1, s.2)))
    (fun _ => StM.bind (try_continue (srcOf a))
      (fun _ => fun s => (Step.val PUnit.unit, (s.1, true))))

/-- The loop of the `try_continue_none` test over a given iteration list. -/
def contLoop [TryAsOption α β] (a : α) (items : List Nat) : StM Nat PUnit (Nat × Bool) PUnit :=
  forLoop none (contBody a) items

/-- Loop body with a `try_break`: `count += 1; let _ = try_break!(src);
panic!();`. State is `(count, reachedRest)`. -/
def brkBody [TryAsOption α β] (a : α) : Nat → StM Nat PUnit (Nat × Bool) PUnit := fun _ =>
  StM.bind (fun s => (Step.val PUnit.unit, (s.1 + 1, s.2)))
    (fun _ => StM.bind (try_break (srcOf a))
      (fun _ => fun s => (Step.val PUnit.unit, (s.1, true))))

/-- Inner body of the nested labeled-continue scenario:
`let _ = try_continue!(src, 'label); panic!();`. -/
def innerBody7c [TryAsOption α β] (a : α) : Nat → StM Nat PUnit (Nat × Bool) PUnit := fun _ =>
  StM.bind (try_continue_lbl (srcOf a) 0)
    (fun _ => fun s => (Step.val PUnit.unit, (s.1, true)))

/-- Outer body of the nested labeled-continue scenario: count the outer
iteration, run the 10-iteration inner loop, then a sentinel (`panic!()`). -/
def outerBody7c [TryAsOption α β] (a : α) : Nat → StM Nat PUnit (Nat × Bool) PUnit := fun _ =>
  StM.bind (fun s => (Step.val PUnit.unit, (s.1 + 1, s.2)))
    (fun _ => StM.bind (forLoop none (innerBody7c a) (List.range 10))
      (fun _ => fun s => (Step.val PUnit.unit, (s.1, true))))

/-- The nested labeled-continue scenario: `'label: for _ in 0..10 \x7b for _
in 0..10 \x7b let _ = try_continue!(src, 'label); panic!(); \x7d panic!(); \x7d`
with outer label `0`, state `(outerCount, reachedSentinel)`. -/
def nested7c [TryAsOption α β] (a : α) : StM Nat PUnit (Nat × Bool) PUnit :=
  forLoop (some 0) (outerBody7c a) (List.range 10)

/-- Inner body of the nested labeled-break scenario:
`let _ = try_break!(src, 'label); panic!();`. -/
def innerBody7b [TryAsOption α β] (a : α) : Nat → StM Nat PUnit (Nat × Bool) PUnit := fun _ =>
  StM.bind (try_break_lbl (srcOf a) 0)
    (fun _ => fun s => (Step.val PUnit.unit, (s.1, true)))

/-- Outer body of the nested labeled-break scenario. -/
def outerBody7b [TryAsOption α β] (a : α) : Nat → StM Nat PUnit (Nat × Bool) PUnit := fun _ =>
  StM.bind (fun s => (Step.val PUnit.unit, (s.1 + 1, s.2)))
    (fun _ => StM.bind (forLoop none (innerBody7b a) (List.range 10))
      (fun _ => fun s => (Step.val PUnit.unit, (s.1, true))))

/-- The nested labeled-break scenario with outer label `0`. -/
def nested7b [TryAsOption α β] (a : α) : StM Nat PUnit (Nat × Bool) PUnit :=
  forLoop (some 0) (outerBody7b a) (List.range 10)

theorem range10_eq : List.range 10 = 0 :: [1, 2, 3, 4, 5, 6, 7, 8, 9] := by decide

theorem contLoop_run [TryAsOption α β] {a : α}
    (h : TryAsOption.try_as_option a = none) :
    ∀ (items : List Nat) (c : Nat),
      forLoop (L := Nat) none (contBody a) items (c, false) =
        (Step.val PUnit.unit, (c + items.length, false)) := by
  intro items
  induction items with
  | nil => intro c; simp [forLoop, StM.pure]
  | cons i rest ih =>
    intro c
    have hb : contBody a i (c, false) = (Step.cont none, (c + 1, false)) := by
      simp [contBody, StM.bind, try_continue, srcOf, h]
    have harith : c + 1 + rest.length = c + (rest.length + 1) := by omega
    simp [forLoop, hb, catches, ih (c + 1), harith]

theorem brkLoop_run [TryAsOption α β] {a : α}
    (h : TryAsOption.try_as_option a = none) (i : Nat) (rest : List Nat) (c : Nat) :
    forLoop (L := Nat) none (brkBody a) (i :: rest) (c, false) =
      (Step.val PUnit.unit, (c + 1, false)) := by
  have hb : brkBody a i (c, false) = (Step.brk none, (c + 1, false)) := by
    simp [brkBody, StM.bind, try_break, srcOf, h]
  simp [forLoop, hb, catches]

theorem innerLoop7c_run [TryAsOption α β] {a : α}
    (h : TryAsOption.try_as_option a = none) (i : Nat) (rest : List Nat) (s : Nat × Bool) :
    forLoop (L := Nat) none (innerBody7c a) (i :: rest) s = (Step.cont (some 0), s) := by
  have hb : innerBody7c a i s = (Step.cont (some 0), s) := by
    simp [innerBody7c, StM.bind, try_continue_lbl, srcOf, h]
  simp [forLoop, hb, catches]

theorem outerBody7c_run [TryAsOption α β] {a : α}
    (h : TryAsOption.try_as_option a = none) (i c : Nat) :
    outerBody7c a i (c, false) = (Step.cont (some 0), (c + 1, false)) := by
  have h1 : forLoop (L := Nat) none (innerBody7c a) (List.range 10) (c + 1, false) =
      (Step.cont (some 0), (c + 1, false)) := by
    rw [range10_eq]; exact innerLoop7c_run h 0 _ _
  simp [outerBody7c, StM.bind, h1]

theorem outerLoop7c_run [TryAsOption α β] {a : α}
    (h : TryAsOption.try_as_option a = none) :
    ∀ (items : List Nat) (c : Nat),
      forLoop (L := Nat) (some 0) (outerBody7c a) items (c, false) =
        (Step.val PUnit.unit, (c + items.length, false)) := by
  intro items
  induction items with
  | nil => intro c; simp [forLoop, StM.pure]
  | cons i rest ih =>
    intro c
    have harith : c + 1 + rest.length = c + (rest.length + 1) := by omega
    simp [forLoop, outerBody7c_run h, catches, ih (c + 1), harith]

theorem innerLoop7b_run [TryAsOption α β] {a : α}
    (h : TryAsOption.try_as_option a = none) (i : Nat) (rest : List Nat) (s : Nat × Bool) :
    forLoop (L := Nat) none (innerBody7b a) (i :: rest) s = (Step.brk (some 0), s) := by
  have hb : innerBody7b a i s = (Step.brk (some 0), s) := by
    simp [innerBody7b, StM.bind, try_break_lbl, srcOf, h]
  simp [forLoop, hb, catches]

theorem outerBody7b_run [TryAsOption α β] {a : α}
    (h : TryAsOption.try_as_option a = none) (i c : Nat) :
    outerBody7b a i (c, false) = (Step.brk (some 0), (c + 1, false)) := by
  have h1 : forLoop (L := Nat) none (innerBody7b a) (List.range 10) (c + 1, false) =
      (Step.brk (some 0), (c + 1, false)) := by
    rw [range10_eq]; exact innerLoop7b_run h 0 _ _
  simp [outerBody7b, StM.bind, h1]

theorem outerLoop7b_run [TryAsOption α β] {a : α}
    (h : TryAsOption.try_as_option a = none) (i : Nat) (rest : List Nat) (c : Nat) :
    forLoop (L := Nat) (some 0) (outerBody7b a) (i :: rest) (c, false) =
      (Step.val PUnit.unit, (c + 1, false)) := by
  simp [forLoop, outerBody7b_run h, catches]

/-- C1: normalization maps a native two-case value through unchanged and a
success/failure value to its success payload or to `none`: `try_as_option`
on any `Option` is the identity, `Ok(x)` normalizes to `some x`, and
`Err(e)` normalizes to `none` for every failure detail `e`. -/
theorem normalize_cases {T E : Type} (o : Option T) (x : T) (e : E) :
    TryAsOption.try_as_option o = o ∧
    TryAsOption.try_as_option (RsResult.ok x : RsResult T E) = some x ∧
    TryAsOption.try_as_option (RsResult.err e : RsResult T E) = none :=
  ⟨rfl, rfl, rfl⟩

/-- C2: on any presence-bearing input (any source normalizing to `some x`;
witnessed by `Some`, applicable to `Ok` via the `RsResult` instance), every
expansion form, with or without fallback or label, evaluates to exactly `x`
with no control-flow diversion: sequenced with any following code `k`, the
whole computation runs `k x` in the unchanged state. -/
theorem present_no_diversion {L ρ σ α β : Type} [TryAsOption α β] (a : α) (x : β)
    (h : TryAsOption.try_as_option a = some x) (r : ρ) (lbl : L)
    (k : β → StM L ρ σ PUnit) (k0 : β → StM L PUnit σ PUnit) (s : σ) :
    try_return (L := L) (srcOf a) r s = (Step.val x, s) ∧
    StM.bind (try_return (srcOf a) r) k s = k x s ∧
    StM.bind (try_return1 (srcOf a)) k0 s = k0 x s ∧
    StM.bind (try_continue (srcOf a)) k s = k x s ∧
    StM.bind (try_continue_lbl (srcOf a) lbl) k s = k x s ∧
    StM.bind (try_break (srcOf a)) k s = k x s ∧
    StM.bind (try_break_lbl (srcOf a) lbl) k s = k x s := by
  refine ⟨?_, ?_, ?_, ?_, ?_, ?_, ?_⟩ <;>
    simp [StM.bind, try_return, try_return1, try_continue, try_continue_lbl,
      try_break, try_break_lbl, srcOf, h]

theorem present_no_diversion_witness :
    TryAsOption.try_as_option (some 5 : Option Nat) = some 5 ∧
    (try_return (L := Nat) (σ := Nat) (srcOf (some 5 : Option Nat)) (7 : Nat) 0 =
        (Step.val 5, 0) ∧
      StM.bind (try_return (L := Nat) (srcOf (some 5 : Option Nat)) (7 : Nat))
        (fun _ => StM.pure PUnit.unit) 0 = StM.pure PUnit.unit 0 ∧
      StM.bind (try_return1 (L := Nat) (srcOf (some 5 : Option Nat)))
        (fun _ => StM.pure PUnit.unit) 0 = StM.pure PUnit.unit 0 ∧
      StM.bind (try_continue (L := Nat) (ρ := Nat) (srcOf (some 5 : Option Nat)))
        (fun _ => StM.pure PUnit.unit) 0 = StM.pure PUnit.unit 0 ∧
      StM.bind (try_continue_lbl (ρ := Nat) (srcOf (some 5 : Option Nat)) (3 : Nat))
        (fun _ => StM.pure PUnit.unit) 0 = StM.pure PUnit.unit 0 ∧
      StM.bind (try_break (L := Nat) (ρ := Nat) (srcOf (some 5 : Option Nat)))
        (fun _ => StM.pure PUnit.unit) 0 = StM.pure PUnit.unit 0 ∧
      StM.bind (try_break_lbl (ρ := Nat) (srcOf (some 5 : Option Nat)) (3 : Nat))
        (fun _ => StM.pure PUnit.unit) 0 = StM.pure PUnit.unit 0) :=
  ⟨rfl, present_no_diversion (some 5) 5 rfl 7 3
    (fun _ => StM.pure PUnit.unit) (fun _ => StM.pure PUnit.unit) 0⟩

/-- C3: on any absence-bearing input, `try_return` with an explicit fallback
makes the enclosing function terminate immediately with that fallback: the
directive sequenced with any following code `k` yields the `return r` signal
without running `k`, and running the function produces `r`; concretely, the
doc-example function `my_func2` (fallback 1234) yields 10 on `Some(10)` and
1234 on `None`. -/
theorem return_fallback_on_absent {L ρ σ α β : Type} [TryAsOption α β] [Inhabited ρ]
    (a : α) (h : TryAsOption.try_as_option (β := β) a = none) (r : ρ)
    (k : β → StM L ρ σ ρ) (s : σ) :
    StM.bind (try_return (srcOf a) r) k s = (Step.ret r, s) ∧
    runFn (StM.bind (try_return (srcOf a) r) k) s = (r, s) ∧
    my_func2 (some 10) = 10 ∧
    my_func2 none = 1234 := by
  refine ⟨?_, ?_, rfl, rfl⟩ <;>
    simp [runFn, StM.bind, try_return, srcOf, h]

theorem return_fallback_on_absent_witness :
    TryAsOption.try_as_option (none : Option Nat) = none ∧
    (StM.bind (try_return (L := Nat) (srcOf (none : Option Nat)) (7 : Nat))
        (fun v => StM.pure v) 0 = (Step.ret 7, 0) ∧
      runFn (StM.bind (try_return (L := Nat) (srcOf (none : Option Nat)) (7 : Nat))
        (fun v => StM.pure v)) 0 = (7, 0) ∧
      my_func2 (some 10) = 10 ∧
      my_func2 none = 1234) :=
  ⟨rfl, return_fallback_on_absent (none : Option Nat) rfl 7 (fun v => StM.pure v) 0⟩

/-- C4: with no fallback, the one-argument arm delegates to fallback `()`:
on any absence-bearing input the directive makes the enclosing unit-returning
function return `()` immediately, with no further statement executing;
concretely, the doc-example `my_func3` never reaches the code after the
directive on `None` (flag stays `false`) and does reach it on `Some(10)`. -/
theorem return_unit_on_absent {L σ α β : Type} [TryAsOption α β]
    (a : α) (h : TryAsOption.try_as_option (β := β) a = none)
    (k : β → StM L PUnit σ PUnit) (s : σ) :
    StM.bind (try_return1 (srcOf a)) k s = (Step.ret PUnit.unit, s) ∧
    runFn (StM.bind (try_return1 (srcOf a)) k) s = (PUnit.unit, s) ∧
    my_func3 none = (PUnit.unit, false) ∧
    my_func3 (some 10) = (PUnit.unit, true) := by
  refine ⟨?_, ?_, rfl, rfl⟩ <;>
    simp [runFn, StM.bind, try_return1, try_return, srcOf, h]

theorem return_unit_on_absent_witness :
    TryAsOption.try_as_option (none : Option Nat) = none ∧
    (StM.bind (try_return1 (L := Nat) (srcOf (none : Option Nat)))
        (fun _ => StM.pure PUnit.unit) 0 = (Step.ret PUnit.unit, 0) ∧
      runFn (StM.bind (try_return1 (L := Nat) (srcOf (none : Option Nat)))
        (fun _ => StM.pure PUnit.unit)) 0 = (PUnit.unit, 0) ∧
      my_func3 none = (PUnit.unit, false) ∧
      my_func3 (some 10) = (PUnit.unit, true)) :=
  ⟨rfl, return_unit_on_absent (none : Option Nat) rfl (fun _ => StM.pure PUnit.unit) 0⟩

/-- C5: on any absence-bearing input inside a loop, `try_continue` skips
exactly the remainder of the current iteration (any following code `k` never
runs) and the loop completes all of its scheduled iterations: running the
test-suite loop body (count, directive, sentinel) over any iteration list
increments the count once per scheduled iteration and never reaches the
sentinel after the directive. -/
theorem continue_keeps_iteration_count {α β : Type} [TryAsOption α β] (a : α)
    (h : TryAsOption.try_as_option a = none) (items : List Nat) (c : Nat)
    (k : β → StM Nat PUnit (Nat × Bool) PUnit) (s : Nat × Bool) :
    StM.bind (try_continue (srcOf a)) k s = (Step.cont none, s) ∧
    contLoop a items (c, false) = (Step.val PUnit.unit, (c + items.length, false)) := by
  constructor
  · simp [StM.bind, try_continue, srcOf, h]
  · simpa [contLoop] using contLoop_run h items c

theorem continue_keeps_iteration_count_witness :
    TryAsOption.try_as_option (none : Option Nat) = none ∧
    (StM.bind (try_continue (L := Nat) (ρ := PUnit) (srcOf (none : Option Nat)))
        (fun _ => StM.pure PUnit.unit) ((0 : Nat), false) = (Step.cont none, (0, false)) ∧
      contLoop (none : Option Nat) [4, 5, 6] (0, false) =
        (Step.val PUnit.unit, (3, false))) :=
  ⟨rfl, continue_keeps_iteration_count (none : Option Nat) rfl [4, 5, 6] 0
    (fun _ => StM.pure PUnit.unit) (0, false)⟩

/-- C6: on any absence-bearing input inside a loop, `try_break` terminates
the loop entirely: any following code `k` in that iteration never runs, and
a loop whose body fires the directive in its first iteration performs zero
further iterations regardless of how many were scheduled (the count rises by
exactly one and the post-directive sentinel is never reached). -/
theorem break_terminates_loop {α β : Type} [TryAsOption α β] (a : α)
    (h : TryAsOption.try_as_option a = none) (i : Nat) (rest : List Nat) (c : Nat)
    (k : β → StM Nat PUnit (Nat × Bool) PUnit) (s : Nat × Bool) :
    StM.bind (try_break (srcOf a)) k s = (Step.brk none, s) ∧
    forLoop (L := Nat) none (brkBody a) (i :: rest) (c, false) =
      (Step.val PUnit.unit, (c + 1, false)) :=
  ⟨by simp [StM.bind, try_break, srcOf, h], brkLoop_run h i rest c⟩

theorem break_terminates_loop_witness :
    TryAsOption.try_as_option (none : Option Nat) = none ∧
    (StM.bind (try_break (L := Nat) (ρ := PUnit) (srcOf (none : Option Nat)))
        (fun _ => StM.pure PUnit.unit) ((0 : Nat), false) = (Step.brk none, (0, false)) ∧
      forLoop (L := Nat) none (brkBody (none : Option Nat)) [4, 5, 6] (0, false) =
        (Step.val PUnit.unit, (1, false))) :=
  ⟨rfl, break_terminates_loop (none : Option Nat) rfl 4 [5, 6] 0
    (fun _ => StM.pure PUnit.unit) (0, false)⟩

/-- C7: with nested loops, the labeled forms divert the loop named by the
label, not the innermost one: in the 10 by 10 nested scenario whose inner
body targets the outer label on an absence-bearing input, the labeled
continue makes the outer loop execute exactly 10 times and the labeled break
makes it execute exactly once, and in both cases no statement after the
directive (inner or outer sentinel) is ever reached. -/
theorem labeled_forms_target_labeled_loop {α β : Type} [TryAsOption α β] (a : α)
    (h : TryAsOption.try_as_option a = none) :
    nested7c a (0, false) = (Step.val PUnit.unit, (10, false)) ∧
    nested7b a (0, false) = (Step.val PUnit.unit, (1, false)) := by
  constructor
  · simpa [nested7c, List.length_range] using outerLoop7c_run h (List.range 10) 0
  · show forLoop (L := Nat) (some 0) (outerBody7b a) (List.range 10) (0, false) = _
    rw [range10_eq]
    exact outerLoop7b_run h 0 [1, 2, 3, 4, 5, 6, 7, 8, 9] 0

theorem labeled_forms_target_labeled_loop_witness :
    TryAsOption.try_as_option (none : Option Nat) = none ∧
    (nested7c (none : Option Nat) (0, false) = (Step.val PUnit.unit, (10, false)) ∧
      nested7b (none : Option Nat) (0, false) = (Step.val PUnit.unit, (1, false))) :=
  ⟨rfl, labeled_forms_target_labeled_loop (none : Option Nat) rfl⟩

/-- C8: success/failure sources are observably interchangeable with native
presence/absence sources: `Ok x` normalizes as `Some x` does, `Err e1`
normalizes as `Err e2` and as `None` do, and any two sources with equal
normalizations give identical results under every expansion form with any
fallback or label. -/
theorem result_interchangeable {L ρ σ T E α γ β : Type}
    [TryAsOption α β] [TryAsOption γ β] (a : α) (b : γ)
    (h : TryAsOption.try_as_option a = TryAsOption.try_as_option b)
    (x : T) (e1 e2 : E) (r : ρ) (lbl : L) (s : σ) :
    TryAsOption.try_as_option (RsResult.ok x : RsResult T E) =
      TryAsOption.try_as_option (some x : Option T) ∧
    TryAsOption.try_as_option (RsResult.err e1 : RsResult T E) =
      TryAsOption.try_as_option (RsResult.err e2 : RsResult T E) ∧
    TryAsOption.try_as_option (RsResult.err e1 : RsResult T E) =
      TryAsOption.try_as_option (none : Option T) ∧
    try_return (L := L) (srcOf a) r s = try_return (srcOf b) r s ∧
    try_return1 (L := L) (srcOf a) s = try_return1 (srcOf b) s ∧
    try_continue (L := L) (ρ := ρ) (srcOf a) s = try_continue (srcOf b) s ∧
    try_continue_lbl (ρ := ρ) (srcOf a) lbl s = try_continue_lbl (srcOf b) lbl s ∧
    try_break (L := L) (ρ := ρ) (srcOf a) s = try_break (srcOf b) s ∧
    try_break_lbl (ρ := ρ) (srcOf a) lbl s = try_break_lbl (srcOf b) lbl s := by
  refine ⟨rfl, rfl, rfl, ?_, ?_, ?_, ?_, ?_, ?_⟩ <;>
    simp [try_return, try_return1, try_continue, try_continue_lbl, try_break,
      try_break_lbl, srcOf, h]

theorem result_interchangeable_witness :
    TryAsOption.try_as_option (RsResult.ok 5 : RsResult Nat Nat) =
      TryAsOption.try_as_option (some 5 : Option Nat) ∧
    (TryAsOption.try_as_option (RsResult.ok 1 : RsResult Nat Nat) =
        TryAsOption.try_as_option (some 1 : Option Nat) ∧
      TryAsOption.try_as_option (RsResult.err 2 : RsResult Nat Nat) =
        TryAsOption.try_as_option (RsResult.err 3 : RsResult Nat Nat) ∧
      TryAsOption.try_as_option (RsResult.err 2 : RsResult Nat Nat) =
        TryAsOption.try_as_option (none : Option Nat) ∧
      try_return (L := Nat) (σ := Nat) (srcOf (RsResult.ok 5 : RsResult Nat Nat)) (7 : Nat) 0 =
        try_return (srcOf (some 5 : Option Nat)) 7 0 ∧
      try_return1 (L := Nat) (σ := Nat) (srcOf (RsResult.ok 5 : RsResult Nat Nat)) 0 =
        try_return1 (srcOf (some 5 : Option Nat)) 0 ∧
      try_continue (L := Nat) (ρ := Nat) (σ := Nat) (srcOf (RsResult.ok 5 : RsResult Nat Nat)) 0 =
        try_continue (srcOf (some 5 : Option Nat)) 0 ∧
      try_continue_lbl (ρ := Nat) (σ := Nat) (srcOf (RsResult.ok 5 : RsResult Nat Nat)) (3 : Nat) 0 =
        try_continue_lbl (srcOf (some 5 : Option Nat)) 3 0 ∧
      try_break (L := Nat) (ρ := Nat) (σ := Nat) (srcOf (RsResult.ok 5 : RsResult Nat Nat)) 0 =
        try_break (srcOf (some 5 : Option Nat)) 0 ∧
      try_break_lbl (ρ := Nat) (σ := Nat) (srcOf (RsResult.ok 5 : RsResult Nat Nat)) (3 : Nat) 0 =
        try_break_lbl (srcOf (some 5 : Option Nat)) 3 0) :=
  ⟨rfl, result_interchangeable (RsResult.ok 5 : RsResult Nat Nat) (some 5 : Option Nat)
    rfl 1 2 3 7 3 0⟩

/-- C9: normalization is total and pure: on every `Option` it returns the
input itself, and every `RsResult` falls into exactly one of the two defined
cases, `ok t` yielding `some t` or `err e` yielding `none` — there is no
input on which `try_as_option` is undefined or produces anything beyond the
tag and, in the present case, the payload. -/
theorem normalize_total {T E : Type} (o : Option T) (r : RsResult T E) :
    TryAsOption.try_as_option o = o ∧
    ((∃ t, r = RsResult.ok t ∧ TryAsOption.try_as_option r = some t) ∨
      (∃ e, r = RsResult.err e ∧ TryAsOption.try_as_option r = none)) := by
  refine ⟨rfl, ?_⟩
  cases r with
  | ok t => exact Or.inl ⟨t, rfl, rfl⟩
  | err e => exact Or.inr ⟨e, rfl, rfl⟩

/-- C10: every expansion form evaluates its source expression exactly once,
on both paths: for any stateful source expression `e`, the state after the
directive is precisely the state after a single evaluation of `e`, whichever
arm is used and whichever outcome results. -/
theorem source_evaluated_once {L ρ σ α β : Type} [TryAsOption α β]
    (e : Src σ α) (r : ρ) (lbl : L) (s : σ) :
    (try_return (L := L) e r s).2 = (e s).2 ∧
    (try_return1 (L := L) e s).2 = (e s).2 ∧
    (try_continue (L := L) (ρ := ρ) e s).2 = (e s).2 ∧
    (try_continue_lbl (ρ := ρ) e lbl s).2 = (e s).2 ∧
    (try_break (L := L) (ρ := ρ) e s).2 = (e s).2 ∧
    (try_break_lbl (ρ := ρ) e lbl s).2 = (e s).2 := by
  refine ⟨?_, ?_, ?_, ?_, ?_, ?_⟩ <;>
    · simp only [try_return, try_return1, try_continue, try_continue_lbl,
        try_break, try_break_lbl]
      cases TryAsOption.try_as_option (e s).1 <;> rfl

end TryUtils
